import Mathlib

/-!
Shallow embedding of the indexed-archive subsystem of the 3d-tiles-validator
repository (src/validator/lib/archive.js), together with proofs of the
specified properties.  Byte buffers are modelled as `List Nat` with each
byte below 256; JavaScript strings that are only ever produced from and
compared against buffer slices are modelled as their UTF-8 byte lists.
Numbers read from buffers are plain `Nat` (the source reads unsigned
little-endian fields).  Failures that the source signals with `throw` are
modelled with `Except`; the sentinel return value `-1` of the binary
search is modelled with `Option`.
-/

namespace Archive

/-- Little-endian value of a byte list (first byte least significant). -/
def leVal : List Nat → Nat
  | [] => 0
  | b :: rest => b + 256 * leVal rest

/-- Model of `buffer.readUInt16LE(off)`. -/
def readUInt16LE (buf : List Nat) (off : Nat) : Nat :=
  leVal ((buf.drop off).take 2)

/-- Model of `buffer.readUInt32LE(off)`. -/
def readUInt32LE (buf : List Nat) (off : Nat) : Nat :=
  leVal ((buf.drop off).take 4)

/-- Model of `buffer.readBigUInt64LE(off)`. -/
def readBigUInt64LE (buf : List Nat) (off : Nat) : Nat :=
  leVal ((buf.drop off).take 8)

/-- One record of the custom zip index: a 16-byte md5 hash and a byte
offset into the container (`{md5hash, offset}` in `parseIndexData`). -/
structure IndexEntry where
  md5hash : List Nat
  offset : Nat
deriving Repr, DecidableEq

/-- JavaScript array indexing `zipIndex[i]`; out-of-range access never
happens on the control paths we prove about, so a default entry stands in
for `undefined`. -/
def getEntry (zipIndex : List IndexEntry) (i : Nat) : IndexEntry :=
  zipIndex.getD i ⟨[], 0⟩

/-- Embeds `md5LessThan(md5hashA, md5hashB)` from archive.js: word-wise
comparison, primary key bytes 0-7 as little-endian unsigned 64-bit,
secondary key bytes 8-15. -/
def md5LessThan (md5hashA md5hashB : List Nat) : Bool :=
  let aLo := readBigUInt64LE md5hashA 0
  let bLo := readBigUInt64LE md5hashB 0
  if aLo = bLo then
    let aHi := readBigUInt64LE md5hashA 8
    let bHi := readBigUInt64LE md5hashB 8
    decide (aHi < bHi)
  else
    decide (aLo < bLo)

/-- Embeds the loop of `zipIndexFind`.  The source keeps `low` and `high`
with the loop condition `low <= high`; here `high1` stands for `high + 1`
so that both bounds stay in `Nat` (the only negative value the source can
reach is `high = -1`, i.e. `high1 = 0`).  `mid` is the source expression
`Math.floor(low + (high - low) / 2)`. -/
def zipIndexFindAux (zipIndex : List IndexEntry) (searchHash : List Nat)
    (low high1 : Nat) : Option Nat :=
  if low < high1 then
    let mid := low + (high1 - 1 - low) / 2
    let entry := getEntry zipIndex mid
    if entry.md5hash = searchHash then
      some mid
    else if md5LessThan entry.md5hash searchHash then
      zipIndexFindAux zipIndex searchHash (mid + 1) high1
    else
      zipIndexFindAux zipIndex searchHash low mid
  else
    none
termination_by high1 - low
decreasing_by
  all_goals
    have := Nat.div_le_self (high1 - 1 - low) 2
    omega

/-- Embeds `zipIndexFind(zipIndex, searchHash)`: binary search starting
from `low = 0`, `high = zipIndex.length - 1`; `none` models the `-1`
not-found result. -/
def zipIndexFind (zipIndex : List IndexEntry) (searchHash : List Nat) : Option Nat :=
  zipIndexFindAux zipIndex searchHash 0 zipIndex.length

/-- Strict ascending order of adjacent index entries under the word-wise
comparison. -/
def AdjSorted (zipIndex : List IndexEntry) : Prop :=
  ∀ i < zipIndex.length - 1,
    md5LessThan (getEntry zipIndex i).md5hash (getEntry zipIndex (i + 1)).md5hash = true

instance (zipIndex : List IndexEntry) : Decidable (AdjSorted zipIndex) :=
  Nat.decidableBallLT _ _

/-- Result of the adjacent-pair scan at the top of `validateIndex`
(archive.js lines 286-300): the pushed `errors.collisions` pairs, the
positions `i` at which the wrong-sort-order warning fires, and the final
`valid` flag of that loop. -/
structure OrderingReport where
  collisions : List (Nat × Nat)
  orderViolations : List Nat
  valid : Bool
deriving Repr, DecidableEq

/-- One iteration of the `for (let i = 1; i < numItems; i++)` scan of
`validateIndex`, processed from position `i` upward. -/
def checkOrderingFrom (zipIndex : List IndexEntry) (i : Nat) : OrderingReport :=
  if h : i < zipIndex.length then
    let prevEntry := getEntry zipIndex (i - 1)
    let curEntry := getEntry zipIndex i
    let rest := checkOrderingFrom zipIndex (i + 1)
    { collisions :=
        if prevEntry.md5hash = curEntry.md5hash then
          (i - 1, i) :: rest.collisions
        else
          rest.collisions
      orderViolations :=
        if md5LessThan prevEntry.md5hash curEntry.md5hash = false then
          i :: rest.orderViolations
        else
          rest.orderViolations
      valid :=
        if md5LessThan prevEntry.md5hash curEntry.md5hash = false then
          false
        else
          rest.valid }
  else
    { collisions := [], orderViolations := [], valid := true }
termination_by zipIndex.length - i

/-- The adjacent-pair scan of `validateIndex` (the specification calls it
`check_ordering`): runs only when `numItems > 1`, starting at `i = 1`. -/
def checkOrdering (zipIndex : List IndexEntry) : OrderingReport :=
  if 1 < zipIndex.length then
    checkOrderingFrom zipIndex 1
  else
    { collisions := [], orderViolations := [], valid := true }

/-- Embeds the control flow of `validateIndex(zipIndex, zipFilePath,
quick)`.  The effectful collaborators are abstracted into parameters:
`rootHash` is the md5 digest of the fixed string `tileset.json`,
`rootHeaderOk` tells whether `readZipLocalFileHeader` succeeds on the
root entry, and `slowOk` is the result of `slowValidateIndex`. -/
def validateIndex (zipIndex : List IndexEntry) (rootHash : List Nat)
    (rootHeaderOk slowOk quick : Bool) : Bool :=
  let valid := (checkOrdering zipIndex).valid
  let valid :=
    match zipIndexFind zipIndex rootHash with
    | none => false
    | some _ => if rootHeaderOk then valid else false
  if quick = false ∧ valid = true then slowOk else valid

/-- Embeds `parseIndexData(buffer)`: a buffer whose length is not a
multiple of 24 is rejected (the source returns `-1`, modelled `none`);
otherwise entry `i` is built from the 24-byte record at byte `24 * i`. -/
def parseIndexData (buffer : List Nat) : Option (List IndexEntry) :=
  if buffer.length % 24 ≠ 0 then
    none
  else
    let numEntries := buffer.length / 24
    some ((List.range numEntries).map (fun i =>
      { md5hash := (buffer.drop (i * 24)).take 16
        offset := readBigUInt64LE buffer (i * 24 + 16) }))

/-- The bytes of the reserved index entry name `@3dtilesIndex1@`. -/
def indexFilename : List Nat :=
  [0x40, 0x33, 0x64, 0x74, 0x69, 0x6C, 0x65, 0x73,
   0x49, 0x6E, 0x64, 0x65, 0x78, 0x31, 0x40]

/-- One entry streamed out of the container by the zip library in
`slowValidateIndex` (name, whether it is a file, and its local header
offset). -/
structure ZipEntry where
  name : List Nat
  isFile : Bool
  offset : Nat
deriving Repr, DecidableEq

/-- The distinct rejection reasons of `slowValidateIndex` (the strings
passed to `reject`). -/
inductive SlowError where
  | notFound (name hash : List Nat)
  | incorrectOffset (name hash : List Nat) (got expected : Nat)
  | tooFewEntries (expected got : Nat)
deriving Repr, DecidableEq

/-- One firing of the `entry` handler of `slowValidateIndex`.  The state
is `(zipFileEntriesCount, first rejection)`: a JavaScript promise settles
on its first `reject`, so later rejections are kept out, while the entry
counter keeps incrementing for every file entry. -/
def slowValidateStep (md5 : List Nat → List Nat) (zipIndex : List IndexEntry)
    (st : Nat × Option SlowError) (entry : ZipEntry) : Nat × Option SlowError :=
  if entry.isFile = true ∧ entry.name ≠ indexFilename then
    (st.1 + 1,
      match st.2 with
      | some e => some e
      | none =>
        match zipIndexFind zipIndex (md5 entry.name) with
        | none => some (SlowError.notFound entry.name (md5 entry.name))
        | some index =>
          if entry.offset ≠ (getEntry zipIndex index).offset then
            some (SlowError.incorrectOffset entry.name (md5 entry.name)
              (getEntry zipIndex index).offset entry.offset)
          else
            none)
  else
    st

/-- Embeds `slowValidateIndex(zipIndex, zipFilePath)` up to the promise
settlement: the container is abstracted as the streamed entry list, the
hash function as `md5`.  After all `entry` events, the `ready` handler
rejects on an entry-count mismatch and resolves otherwise; the first
rejection wins. -/
def slowValidateIndexE (md5 : List Nat → List Nat) (zipIndex : List IndexEntry)
    (entries : List ZipEntry) : Except SlowError Unit :=
  let final := entries.foldl (slowValidateStep md5 zipIndex) (0, none)
  match final.2 with
  | some e => Except.error e
  | none =>
    if zipIndex.length ≠ final.1 then
      Except.error (SlowError.tooFewEntries final.1 zipIndex.length)
    else
      Except.ok ()

/-- The `.catch` wrapper of `slowValidateIndex`: any rejection becomes
`false`, resolution gives `true`. -/
def slowValidateIndexBool (md5 : List Nat → List Nat) (zipIndex : List IndexEntry)
    (entries : List ZipEntry) : Bool :=
  match slowValidateIndexE md5 zipIndex entries with
  | Except.ok _ => true
  | Except.error _ => false

/-- A container entry that cross-validation passes over without
rejecting: either not a real file entry, or present in the index with
the matching offset. -/
def entryOk (md5 : List Nat → List Nat) (zipIndex : List IndexEntry)
    (e : ZipEntry) : Bool :=
  if e.isFile = true ∧ e.name ≠ indexFilename then
    match zipIndexFind zipIndex (md5 e.name) with
    | none => false
    | some index => decide (e.offset = (getEntry zipIndex index).offset)
  else
    true

/-! Container header parser (archive.js lines 29-169 and 35-60). -/

def ZIP_END_OF_CENTRAL_DIRECTORY_HEADER_SIG : Nat := 0x06054b50

def ZIP_START_OF_CENTRAL_DIRECTORY_HEADER_SIG : Nat := 0x02014b50

def ZIP64_EXTENDED_INFORMATION_EXTRA_SIG : Nat := 0x0001

def ZIP_LOCAL_FILE_HEADER_STATIC_SIZE : Nat := 30

def ZIP_CENTRAL_DIRECTORY_STATIC_SIZE : Nat := 46

/-- The errors thrown by the header parser and the indexed reader. -/
inductive ArchiveError where
  | badCDSignature (sig : Nat)
  | disallowedBitflags (bits : Nat)
  | badCompressionMethod (m : Nat)
  | cdFilenameMismatch (found expected : List Nat)
  | noZip64Offset
  | badLocalSignature (sig : Nat)
  | localFilenameMismatch (found expected : List Nat)
  | zeroCompSize
  | notFoundInIndex (path : List Nat)
deriving Repr, DecidableEq

/-- Embeds the backward signature scan of `getLastCentralDirectoryEntry`:
`i` runs from `buffer.length - 4` down to `1`; `endAcc` is the running
value of the `end` variable (`start` and `end` both start at 0). -/
def scanForDirectorySigs (buffer : List Nat) : Nat → Nat → Nat × Nat
  | 0, endAcc => (0, endAcc)
  | i + 1, endAcc =>
    if readUInt32LE buffer (i + 1) = ZIP_START_OF_CENTRAL_DIRECTORY_HEADER_SIG then
      (i + 1,
        if readUInt32LE buffer (i + 1) = ZIP_END_OF_CENTRAL_DIRECTORY_HEADER_SIG then i + 1
        else endAcc)
    else
      scanForDirectorySigs buffer i
        (if readUInt32LE buffer (i + 1) = ZIP_END_OF_CENTRAL_DIRECTORY_HEADER_SIG then i + 1
         else endAcc)

/-- Embeds `getLastCentralDirectoryEntry(fd, stat)` on the trailing
window it reads (the source reads the last 320 bytes of the container
into `buffer`).  The source never throws here: when the two scan results
differ it returns `buffer.slice(start)`, otherwise the whole buffer.
The `Except` wrapper makes the absence of a failure path explicit. -/
def getLastCentralDirectoryEntry (buffer : List Nat) : Except ArchiveError (List Nat) :=
  let scanned := scanForDirectorySigs buffer (buffer.length - 4) 0
  if scanned.1 ≠ scanned.2 then
    Except.ok (buffer.drop scanned.1)
  else
    Except.ok buffer

/-- The header fields read by
`validateCentralDirectoryHeaderAndGetFileContents`. -/
structure CDHeader where
  signature : Nat
  version_madeby : Nat
  version_needed : Nat
  bitflags : Nat
  comp_method : Nat
  last_mod_time : Nat
  last_mod_date : Nat
  crc : Nat
  comp_size : Nat
  uncomp_size : Nat
  filename_size : Nat
  extra_size : Nat
  comment_size : Nat
  disk_number : Nat
  int_attrib : Nat
  ext_attrib : Nat
  offset : Nat
deriving Repr, DecidableEq

/-- The central directory header fields as read by the source (every
field is a fixed little-endian read at a fixed offset), with `offset`
already resolved to its final value. -/
def mkCDHeader (buffer : List Nat) (offset : Nat) : CDHeader :=
  { signature := readUInt32LE buffer 0
    version_madeby := readUInt16LE buffer 4
    version_needed := readUInt16LE buffer 6
    bitflags := readUInt16LE buffer 8
    comp_method := readUInt16LE buffer 10
    last_mod_time := readUInt16LE buffer 12
    last_mod_date := readUInt16LE buffer 14
    crc := readUInt32LE buffer 16
    comp_size := readUInt32LE buffer 20
    uncomp_size := readUInt32LE buffer 24
    filename_size := readUInt16LE buffer 28
    extra_size := readUInt16LE buffer 30
    comment_size := readUInt16LE buffer 32
    disk_number := readUInt16LE buffer 34
    int_attrib := readUInt16LE buffer 36
    ext_attrib := readUInt32LE buffer 38
    offset := offset }

/-- Embeds the `while (!offset64Found && currentOffset < endExtrasOffset)`
scan of the zip64 extended-information record (archive.js lines 108-125).
The source loop is not structurally terminating (the skip adds only
`extra_size`, which may be 0), so the model is fuel-indexed:
`none` means the fuel ran out with the loop still running, `some none`
means the loop exited without a match (the source then throws), and
`some (some v)` means the record was found with 64-bit value `v`. -/
def findZip64Offset (buffer : List Nat) (endExtrasOffset : Nat) :
    Nat → Nat → Option (Option Nat)
  | 0, _ => none
  | fuel + 1, currentOffset =>
    if currentOffset < endExtrasOffset then
      if readUInt16LE buffer currentOffset = ZIP64_EXTENDED_INFORMATION_EXTRA_SIG ∧
          readUInt16LE buffer (currentOffset + 2) = 8 then
        some (some (readBigUInt64LE buffer (currentOffset + 4)))
      else
        findZip64Offset buffer endExtrasOffset fuel
          (currentOffset + readUInt16LE buffer (currentOffset + 2))
    else
      some none

/-- Embeds the validation part of
`validateCentralDirectoryHeaderAndGetFileContents(fd, buffer,
expectedFilename)`: every check in source order, with the trailing read
of the local file header from the file descriptor abstracted away (the
resolved header is the result).  The filename comparison
`buffer.toString(utf8, 46, 46 + filename_size) === expectedFilename` is
modelled as equality of the byte slice with the expected byte list.
The outer `Option` is the fuel-indexed termination of the zip64 scan:
`none` means that scan is still running after `fuel` iterations. -/
def validateCentralDirectoryHeader (buffer expectedFilename : List Nat)
    (fuel : Nat) : Option (Except ArchiveError CDHeader) :=
  let signature := readUInt32LE buffer 0
  if signature ≠ ZIP_START_OF_CENTRAL_DIRECTORY_HEADER_SIG then
    some (Except.error (ArchiveError.badCDSignature signature))
  else
    let bitflags := readUInt16LE buffer 8
    let disallowed_flags_mask := 1 + 8 + 32 + 8192
    if Nat.land disallowed_flags_mask bitflags ≠ 0 then
      some (Except.error (ArchiveError.disallowedBitflags (Nat.land disallowed_flags_mask bitflags)))
    else
      let comp_method := readUInt16LE buffer 10
      if comp_method ≠ 0 then
        some (Except.error (ArchiveError.badCompressionMethod comp_method))
      else
        let filename_size := readUInt16LE buffer 28
        let extra_size := readUInt16LE buffer 30
        let filename := (buffer.drop ZIP_CENTRAL_DIRECTORY_STATIC_SIZE).take filename_size
        if filename ≠ expectedFilename then
          some (Except.error (ArchiveError.cdFilenameMismatch filename expectedFilename))
        else
          let offset32 := readUInt32LE buffer 42
          if offset32 = 0xFFFFFFFF then
            let endExtrasOffset := ZIP_CENTRAL_DIRECTORY_STATIC_SIZE + filename_size + extra_size
            match findZip64Offset buffer endExtrasOffset fuel (ZIP_CENTRAL_DIRECTORY_STATIC_SIZE + filename_size) with
            | none => none
            | some none => some (Except.error ArchiveError.noZip64Offset)
            | some (some offset64) =>
              some (Except.ok (mkCDHeader buffer offset64))
          else
            some (Except.ok (mkCDHeader buffer offset32))

/-- The local entry header fields read by
`parseLocalFileHeaderAndValidateFilename`. -/
structure LocalHeader where
  signature : Nat
  version_needed : Nat
  general_bits : Nat
  compression_method : Nat
  last_mod_time : Nat
  last_mod_date : Nat
  crc32 : Nat
  comp_size : Nat
  uncomp_size : Nat
  filename_size : Nat
  extra_size : Nat
deriving Repr, DecidableEq

/-- Embeds `parseLocalFileHeaderAndValidateFilename(buffer,
expectedFilename)`: signature check, field reads, filename check against
the expected name, then the non-zero compressed-size check. -/
def parseLocalFileHeaderAndValidateFilename (buffer expectedFilename : List Nat) :
    Except ArchiveError LocalHeader :=
  let signature := readUInt32LE buffer 0
  if signature ≠ 0x04034b50 then
    Except.error (ArchiveError.badLocalSignature signature)
  else
    let header : LocalHeader :=
      { signature := signature
        version_needed := readUInt16LE buffer 4
        general_bits := readUInt16LE buffer 6
        compression_method := readUInt16LE buffer 8
        last_mod_time := readUInt16LE buffer 10
        last_mod_date := readUInt16LE buffer 12
        crc32 := readUInt32LE buffer 14
        comp_size := readUInt32LE buffer 18
        uncomp_size := readUInt32LE buffer 22
        filename_size := readUInt16LE buffer 26
        extra_size := readUInt16LE buffer 28 }
    let filename := (buffer.drop ZIP_LOCAL_FILE_HEADER_STATIC_SIZE).take header.filename_size
    if filename ≠ expectedFilename then
      Except.error (ArchiveError.localFilenameMismatch filename expectedFilename)
    else if header.comp_size = 0 then
      Except.error ArchiveError.zeroCompSize
    else
      Except.ok header

/-- The bounded window `fsExtra.read(fd, headerBuffer, 0, headerSize,
offset)` fills in `readZipLocalFileHeader`: `headerSize` bytes of the
container starting at `offset`. -/
def localHeaderWindow (file : List Nat) (offset headerSize : Nat) : List Nat :=
  (file.drop offset).take headerSize

/-- Embeds `readZipLocalFileHeader(fd, offset, path)`: reads a window of
`30 + path.length` bytes at `offset` and parses it, validating the
stored filename against `path`. -/
def readZipLocalFileHeader (file : List Nat) (offset : Nat) (path : List Nat) :
    Except ArchiveError LocalHeader :=
  let headerSize := ZIP_LOCAL_FILE_HEADER_STATIC_SIZE + path.length
  parseLocalFileHeaderAndValidateFilename (localHeaderWindow file offset headerSize) path

/-- Embeds `searchIndex(zipIndex, searchPath)`: hash the search path,
binary-search the index, return the matched entry or `undefined`. -/
def searchIndex (md5 : List Nat → List Nat) (zipIndex : List IndexEntry)
    (searchPath : List Nat) : Option IndexEntry :=
  match zipIndexFind zipIndex (md5 searchPath) with
  | none => none
  | some matchedIndex => some (getEntry zipIndex matchedIndex)

/-- Embeds the `readData` closure of `getIndexReader` (archive.js lines
438-450): the index search uses the normalized path, while the local
header at the matched offset is validated against the original `path`
argument.  The container is the byte list `file`; the path
normalization and hashing collaborators are parameters. -/
def readData (normalize md5 : List Nat → List Nat) (zipIndex : List IndexEntry)
    (file : List Nat) (path : List Nat) : Except ArchiveError (List Nat) :=
  let normalizedPath := normalize path
  match searchIndex md5 zipIndex normalizedPath with
  | some m =>
    match readZipLocalFileHeader file m.offset path with
    | Except.error e => Except.error e
    | Except.ok header =>
      let fileDataOffset := m.offset + ZIP_LOCAL_FILE_HEADER_STATIC_SIZE + header.filename_size + header.extra_size
      Except.ok ((file.drop fileDataOffset).take header.comp_size)
  | none => Except.error (ArchiveError.notFoundInIndex path)

/-! Concrete inputs used to instantiate the theorems below. -/

/-- A 16-byte hash whose first (primary) word is `b` and whose second
word is zero. -/
def wHash (b : Nat) : List Nat :=
  b :: List.replicate 15 0

/-- A three-entry index, strictly ascending under the word-wise
comparison. -/
def w1Index : List IndexEntry :=
  [⟨wHash 1, 10⟩, ⟨wHash 2, 20⟩, ⟨wHash 3, 30⟩]

/-- A two-entry index whose two entries carry the same hash. -/
def w4Index : List IndexEntry :=
  [⟨wHash 5, 10⟩, ⟨wHash 5, 20⟩]

/-- A two-entry index with duplicate adjacent hashes, for the
`validateIndex` collision theorem. -/
def w9Index : List IndexEntry :=
  [⟨wHash 7, 40⟩, ⟨wHash 7, 50⟩]

/-- A well-formed 24-byte index blob: hash bytes 1..16, offset 2. -/
def w7Good : List Nat :=
  [1, 2, 3, 4, 5, 6, 7, 8, 9, 10, 11, 12, 13, 14, 15, 16,
   2, 0, 0, 0, 0, 0, 0, 0]

/-- A 25-byte blob, not a multiple of the 24-byte record size. -/
def w7Bad : List Nat :=
  List.replicate 25 0

/-- A 16-byte hash with primary word 0 and secondary word 1: small under
the word-wise comparison, large as a full little-endian 128-bit value. -/
def w8a : List Nat :=
  [0, 0, 0, 0, 0, 0, 0, 0, 1, 0, 0, 0, 0, 0, 0, 0]

/-- A 16-byte hash with primary word 1 and secondary word 0: large under
the word-wise comparison, small as a full little-endian 128-bit value. -/
def w8b : List Nat :=
  [1, 0, 0, 0, 0, 0, 0, 0, 0, 0, 0, 0, 0, 0, 0, 0]

/-- A toy hash function for concrete cross-validation runs: the name
padded with zeros to 16 bytes. -/
def wMd5 (name : List Nat) : List Nat :=
  (name ++ List.replicate 16 0).take 16

/-- A one-entry index: the hash of the name `a`, offset 10. -/
def w5Index : List IndexEntry :=
  [⟨wMd5 [0x61], 10⟩]

/-- A container with two real file entries, `a` at offset 10 and `b` at
offset 20: one more entry than `w5Index` declares. -/
def w5Entries : List ZipEntry :=
  [⟨[0x61], true, 10⟩, ⟨[0x62], true, 20⟩]

/-- A container whose single file entry `a` sits at offset 99, not at
the offset 10 stored for it in `w5Index`. -/
def w5bEntries : List ZipEntry :=
  [⟨[0x61], true, 99⟩]

/-- A toy path normalization: strip the first byte (e.g. a leading
slash). -/
def w10normalize (p : List Nat) : List Nat :=
  p.drop 1

/-- The requested path `/a`: its normalized form is `a`. -/
def w10path : List Nat :=
  [0x2F, 0x61]

/-- A container whose local entry at offset 10 (the offset stored in
`w5Index` for the hash of `a`) carries the stored filename `a`. -/
def w10file : List Nat :=
  List.replicate 10 0 ++
  [0x50, 0x4B, 0x03, 0x04] ++
  List.replicate 22 0 ++
  [1, 0] ++
  [0, 0] ++
  [0x61]

/-- A 320-byte all-zero trailing window: contains neither directory
signature. -/
def w6Window : List Nat :=
  List.replicate 320 0

/-- A short all-zero window for instantiating the no-marker theorem. -/
def w6Small : List Nat :=
  List.replicate 8 0

/-- A central directory entry (empty filename, offset sentinel
`0xFFFFFFFF`) whose 4-byte extra field is a single record with tag 0 and
size field 0.  Bytes: signature, versions, bitflags 0, method 0,
times, crc, sizes, filename size 0, extra size 4, comment/disk/attrs,
offset sentinel, then the extra field `00 00 00 00`. -/
def w3Buffer : List Nat :=
  [0x50, 0x4B, 0x01, 0x02,
   0, 0, 0, 0,
   0, 0,
   0, 0,
   0, 0, 0, 0,
   0, 0, 0, 0,
   0, 0, 0, 0,
   0, 0, 0, 0,
   0, 0,
   4, 0,
   0, 0,
   0, 0,
   0, 0,
   0, 0, 0, 0,
   0xFF, 0xFF, 0xFF, 0xFF,
   0, 0, 0, 0]

/-- A central directory entry (empty filename, offset sentinel) whose
20-byte extra field holds two well-formed records back to back: first a
tag `0x0002` record with a 4-byte payload, then a valid tag `0x0001`
record with an 8-byte payload carrying the 64-bit offset
`0x0123456789ABCDEF`. -/
def w2Buffer : List Nat :=
  [0x50, 0x4B, 0x01, 0x02,
   0, 0, 0, 0,
   0, 0,
   0, 0,
   0, 0, 0, 0,
   0, 0, 0, 0,
   0, 0, 0, 0,
   0, 0, 0, 0,
   0, 0,
   20, 0,
   0, 0,
   0, 0,
   0, 0,
   0, 0, 0, 0,
   0xFF, 0xFF, 0xFF, 0xFF,
   0x02, 0x00, 0x04, 0x00, 0xAA, 0xAA, 0xAA, 0xAA,
   0x01, 0x00, 0x08, 0x00, 0xEF, 0xCD, 0xAB, 0x89, 0x67, 0x45, 0x23, 0x01]

/-! Properties of the word-wise comparison. -/

theorem md5LessThan_iff (a b : List Nat) :
    md5LessThan a b = true ↔
      (readBigUInt64LE a 0 < readBigUInt64LE b 0 ∨
        (readBigUInt64LE a 0 = readBigUInt64LE b 0 ∧
          readBigUInt64LE a 8 < readBigUInt64LE b 8)) := by
  unfold md5LessThan
  by_cases h : readBigUInt64LE a 0 = readBigUInt64LE b 0
  · rw [if_pos h]
    simp only [decide_eq_true_eq]
    constructor
    · exact fun hh => Or.inr ⟨h, hh⟩
    · rintro (hh | ⟨_, hh⟩)
      · omega
      · exact hh
  · rw [if_neg h]
    simp only [decide_eq_true_eq]
    constructor
    · exact fun hh => Or.inl hh
    · rintro (hh | ⟨he, _⟩)
      · exact hh
      · exact absurd he h

theorem md5LessThan_irrefl (a : List Nat) : md5LessThan a a = false := by
  unfold md5LessThan
  simp

theorem md5LessThan_trans {a b c : List Nat}
    (hab : md5LessThan a b = true) (hbc : md5LessThan b c = true) :
    md5LessThan a c = true := by
  rw [md5LessThan_iff] at *
  omega

/-- Adjacent strict ascent extends to any pair of positions. -/
theorem adjSorted_lt {zipIndex : List IndexEntry} (hs : AdjSorted zipIndex) :
    ∀ i j, i < j → j < zipIndex.length →
      md5LessThan (getEntry zipIndex i).md5hash (getEntry zipIndex j).md5hash = true := by
  intro i j
  induction j with
  | zero =>
    intro h1 _
    omega
  | succ j ih =>
    intro hij hlen
    rcases Nat.lt_succ_iff_lt_or_eq.mp hij with h | h
    · exact md5LessThan_trans (ih h (by omega)) (hs j (by omega))
    · rw [h]
      exact hs j (by omega)

/-! Correctness of the binary search `zipIndexFind`. -/

theorem zipIndexFindAux_step (zipIndex : List IndexEntry) (searchHash : List Nat)
    (low high1 : Nat) (h : low < high1) :
    zipIndexFindAux zipIndex searchHash low high1 =
      (if (getEntry zipIndex (low + (high1 - 1 - low) / 2)).md5hash = searchHash then
        some (low + (high1 - 1 - low) / 2)
      else if md5LessThan (getEntry zipIndex (low + (high1 - 1 - low) / 2)).md5hash searchHash then
        zipIndexFindAux zipIndex searchHash (low + (high1 - 1 - low) / 2 + 1) high1
      else
        zipIndexFindAux zipIndex searchHash low (low + (high1 - 1 - low) / 2)) := by
  rw [zipIndexFindAux]
  simp [h]

theorem zipIndexFindAux_stop (zipIndex : List IndexEntry) (searchHash : List Nat)
    (low high1 : Nat) (h : ¬ low < high1) :
    zipIndexFindAux zipIndex searchHash low high1 = none := by
  rw [zipIndexFindAux]
  simp [h]

theorem zipIndexFindAux_present {zipIndex : List IndexEntry} {h : List Nat}
    (hs : AdjSorted zipIndex) {p : Nat} (hp : p < zipIndex.length)
    (hhash : (getEntry zipIndex p).md5hash = h) :
    ∀ n low high1, high1 - low ≤ n → low ≤ p → p < high1 → high1 ≤ zipIndex.length →
      zipIndexFindAux zipIndex h low high1 = some p := by
  intro n
  induction n with
  | zero => intro low high1 hm hl hh hle; omega
  | succ n ih =>
    intro low high1 hm hl hh hle
    have hlt : low < high1 := by omega
    have hdiv := Nat.div_le_self (high1 - 1 - low) 2
    rw [zipIndexFindAux_step zipIndex h low high1 hlt]
    set mid := low + (high1 - 1 - low) / 2 with hmid
    have hmlow : low ≤ mid := by omega
    have hmhigh : mid < high1 := by omega
    by_cases heq : (getEntry zipIndex mid).md5hash = h
    · have hpm : mid = p := by
        by_contra hne
        rcases Nat.lt_or_ge mid p with hc | hc
        · have := adjSorted_lt hs mid p hc hp
          rw [heq, hhash] at this
          rw [md5LessThan_irrefl] at this
          exact Bool.false_ne_true this
        · have hc2 : p < mid := by omega
          have := adjSorted_lt hs p mid hc2 (by omega)
          rw [heq, hhash] at this
          rw [md5LessThan_irrefl] at this
          exact Bool.false_ne_true this
      rw [if_pos heq, hpm]
    · by_cases hlt2 : md5LessThan (getEntry zipIndex mid).md5hash h = true
      · have hpm : mid < p := by
          by_contra hc
          push_neg at hc
          rcases Nat.lt_or_ge p mid with hc2 | hc2
          · have := adjSorted_lt hs p mid hc2 (by omega)
            rw [hhash] at this
            have := md5LessThan_trans this hlt2
            rw [md5LessThan_irrefl] at this
            exact Bool.false_ne_true this
          · have : p = mid := by omega
            rw [this] at hhash
            exact heq hhash
        rw [if_neg heq, if_pos hlt2]
        exact ih (mid + 1) high1 (by omega) (by omega) hh hle
      · have hpm : p < mid := by
          by_contra hc
          push_neg at hc
          rcases Nat.lt_or_ge mid p with hc2 | hc2
          · have := adjSorted_lt hs mid p hc2 hp
            rw [hhash] at this
            exact hlt2 this
          · have : p = mid := by omega
            rw [this] at hhash
            exact heq hhash
        rw [if_neg heq, if_neg hlt2]
        exact ih low mid (by omega) hl hpm (by omega)

theorem zipIndexFindAux_absent {zipIndex : List IndexEntry} {h : List Nat} :
    ∀ n low high1, high1 - low ≤ n →
      (∀ p, low ≤ p → p < high1 → (getEntry zipIndex p).md5hash ≠ h) →
      zipIndexFindAux zipIndex h low high1 = none := by
  intro n
  induction n with
  | zero =>
    intro low high1 hm habs
    exact zipIndexFindAux_stop zipIndex h low high1 (by omega)
  | succ n ih =>
    intro low high1 hm habs
    by_cases hlt : low < high1
    · have hdiv := Nat.div_le_self (high1 - 1 - low) 2
      rw [zipIndexFindAux_step zipIndex h low high1 hlt]
      set mid := low + (high1 - 1 - low) / 2 with hmid
      have hmlow : low ≤ mid := by omega
      have hmhigh : mid < high1 := by omega
      have heq : (getEntry zipIndex mid).md5hash ≠ h := habs mid hmlow hmhigh
      by_cases hlt2 : md5LessThan (getEntry zipIndex mid).md5hash h = true
      · rw [if_neg heq, if_pos hlt2]
        exact ih (mid + 1) high1 (by omega) (fun p hl hh => habs p (by omega) hh)
      · rw [if_neg heq, if_neg hlt2]
        exact ih low mid (by omega) (fun p hl hh => habs p hl (by omega))
    · exact zipIndexFindAux_stop zipIndex h low high1 hlt

/-- C1: for an index strictly ascending under the word-wise comparison
(primary key bytes 0-7 little-endian, secondary key bytes 8-15),
`zipIndexFind` of a hash byte-equal to the hash of the entry at position
`p` returns `some p` (the position of that entry), and of a hash equal
to no entry hash returns `none` (the source result `-1`). -/
theorem C1_zipIndexFind_correct (zipIndex : List IndexEntry) (searchHash : List Nat)
    (hs : AdjSorted zipIndex) :
    (∀ p, p < zipIndex.length → (getEntry zipIndex p).md5hash = searchHash →
      zipIndexFind zipIndex searchHash = some p) ∧
    ((∀ p, p < zipIndex.length → (getEntry zipIndex p).md5hash ≠ searchHash) →
      zipIndexFind zipIndex searchHash = none) := by
  constructor
  · intro p hp hhash
    unfold zipIndexFind
    exact zipIndexFindAux_present hs hp hhash zipIndex.length 0 zipIndex.length
      (by omega) (by omega) hp (le_refl _)
  · intro habs
    unfold zipIndexFind
    exact zipIndexFindAux_absent zipIndex.length 0 zipIndex.length (by omega)
      (fun p _ hh => habs p hh)

/-- C1 witness: on a concrete sorted three-entry index, the hash of the
middle entry is found at position 1 and an absent hash gives `none`. -/
theorem C1_zipIndexFind_correct_witness :
    zipIndexFind w1Index (wHash 2) = some 1 ∧ zipIndexFind w1Index (wHash 4) = none :=
  ⟨(C1_zipIndexFind_correct w1Index (wHash 2) (by decide)).1 1 (by decide) (by decide),
   (C1_zipIndexFind_correct w1Index (wHash 4) (by decide)).2 (by decide)⟩

/-! The adjacent-pair scan of `validateIndex`. -/

theorem checkOrderingFrom_stop (zipIndex : List IndexEntry) (k : Nat)
    (h : ¬ k < zipIndex.length) :
    checkOrderingFrom zipIndex k = ⟨[], [], true⟩ := by
  rw [checkOrderingFrom]
  simp [h]

theorem checkOrderingFrom_collisions_step (zipIndex : List IndexEntry) (k : Nat)
    (h : k < zipIndex.length) :
    (checkOrderingFrom zipIndex k).collisions =
      if (getEntry zipIndex (k - 1)).md5hash = (getEntry zipIndex k).md5hash then
        (k - 1, k) :: (checkOrderingFrom zipIndex (k + 1)).collisions
      else
        (checkOrderingFrom zipIndex (k + 1)).collisions := by
  rw [checkOrderingFrom]
  simp [h]

theorem checkOrderingFrom_violations_step (zipIndex : List IndexEntry) (k : Nat)
    (h : k < zipIndex.length) :
    (checkOrderingFrom zipIndex k).orderViolations =
      if md5LessThan (getEntry zipIndex (k - 1)).md5hash (getEntry zipIndex k).md5hash = false then
        k :: (checkOrderingFrom zipIndex (k + 1)).orderViolations
      else
        (checkOrderingFrom zipIndex (k + 1)).orderViolations := by
  rw [checkOrderingFrom]
  simp [h]

theorem checkOrderingFrom_valid_step (zipIndex : List IndexEntry) (k : Nat)
    (h : k < zipIndex.length) :
    (checkOrderingFrom zipIndex k).valid =
      if md5LessThan (getEntry zipIndex (k - 1)).md5hash (getEntry zipIndex k).md5hash = false then
        false
      else
        (checkOrderingFrom zipIndex (k + 1)).valid := by
  rw [checkOrderingFrom]
  simp [h]

theorem checkOrderingFrom_collisions_mem (zipIndex : List IndexEntry) :
    ∀ n k a b, zipIndex.length - k ≤ n →
      ((a, b) ∈ (checkOrderingFrom zipIndex k).collisions ↔
        (k ≤ b ∧ b < zipIndex.length ∧ a = b - 1 ∧
          (getEntry zipIndex (b - 1)).md5hash = (getEntry zipIndex b).md5hash)) := by
  intro n
  induction n with
  | zero =>
    intro k a b hm
    rw [checkOrderingFrom_stop zipIndex k (by omega)]
    simp only [List.not_mem_nil, false_iff]
    rintro ⟨h1, h2, _, _⟩
    omega
  | succ n ih =>
    intro k a b hm
    by_cases hk : k < zipIndex.length
    · rw [checkOrderingFrom_collisions_step zipIndex k hk]
      by_cases he : (getEntry zipIndex (k - 1)).md5hash = (getEntry zipIndex k).md5hash
      · rw [if_pos he]
        simp only [List.mem_cons]
        rw [ih (k + 1) a b (by omega)]
        constructor
        · rintro (hpair | ⟨h1, h2, h3, h4⟩)
          · have ha : a = k - 1 := congrArg Prod.fst hpair
            have hb : b = k := congrArg Prod.snd hpair
            refine ⟨by omega, by omega, by omega, ?_⟩
            rw [hb]
            exact he
          · exact ⟨by omega, h2, h3, h4⟩
        · rintro ⟨h1, h2, h3, h4⟩
          by_cases hbk : b = k
          · left
            rw [hbk, h3, hbk]
          · right
            exact ⟨by omega, h2, h3, h4⟩
      · rw [if_neg he]
        rw [ih (k + 1) a b (by omega)]
        constructor
        · rintro ⟨h1, h2, h3, h4⟩
          exact ⟨by omega, h2, h3, h4⟩
        · rintro ⟨h1, h2, h3, h4⟩
          by_cases hbk : b = k
          · rw [hbk] at h4
            exact absurd h4 he
          · exact ⟨by omega, h2, h3, h4⟩
    · rw [checkOrderingFrom_stop zipIndex k hk]
      simp only [List.not_mem_nil, false_iff]
      rintro ⟨h1, h2, _, _⟩
      omega

theorem checkOrderingFrom_violations_mem (zipIndex : List IndexEntry) :
    ∀ n k i, zipIndex.length - k ≤ n →
      (i ∈ (checkOrderingFrom zipIndex k).orderViolations ↔
        (k ≤ i ∧ i < zipIndex.length ∧
          md5LessThan (getEntry zipIndex (i - 1)).md5hash (getEntry zipIndex i).md5hash = false)) := by
  intro n
  induction n with
  | zero =>
    intro k i hm
    rw [checkOrderingFrom_stop zipIndex k (by omega)]
    simp only [List.not_mem_nil, false_iff]
    rintro ⟨h1, h2, _⟩
    omega
  | succ n ih =>
    intro k i hm
    by_cases hk : k < zipIndex.length
    · rw [checkOrderingFrom_violations_step zipIndex k hk]
      by_cases he : md5LessThan (getEntry zipIndex (k - 1)).md5hash (getEntry zipIndex k).md5hash = false
      · rw [if_pos he]
        simp only [List.mem_cons]
        rw [ih (k + 1) i (by omega)]
        constructor
        · rintro (hik | ⟨h1, h2, h3⟩)
          · rw [hik]
            exact ⟨le_refl k, hk, he⟩
          · exact ⟨by omega, h2, h3⟩
        · rintro ⟨h1, h2, h3⟩
          by_cases hikk : i = k
          · left
            exact hikk
          · right
            exact ⟨by omega, h2, h3⟩
      · rw [if_neg he]
        rw [ih (k + 1) i (by omega)]
        constructor
        · rintro ⟨h1, h2, h3⟩
          exact ⟨by omega, h2, h3⟩
        · rintro ⟨h1, h2, h3⟩
          by_cases hikk : i = k
          · rw [hikk] at h3
            exact absurd h3 he
          · exact ⟨by omega, h2, h3⟩
    · rw [checkOrderingFrom_stop zipIndex k hk]
      simp only [List.not_mem_nil, false_iff]
      rintro ⟨h1, h2, _⟩
      omega

theorem checkOrderingFrom_valid_false (zipIndex : List IndexEntry) :
    ∀ n k i, zipIndex.length - k ≤ n → k ≤ i → i < zipIndex.length →
      md5LessThan (getEntry zipIndex (i - 1)).md5hash (getEntry zipIndex i).md5hash = false →
      (checkOrderingFrom zipIndex k).valid = false := by
  intro n
  induction n with
  | zero =>
    intro k i hm hk hi _
    omega
  | succ n ih =>
    intro k i hm hk hi hv
    have hklen : k < zipIndex.length := by omega
    rw [checkOrderingFrom_valid_step zipIndex k hklen]
    by_cases he : md5LessThan (getEntry zipIndex (k - 1)).md5hash (getEntry zipIndex k).md5hash = false
    · rw [if_pos he]
    · rw [if_neg he]
      by_cases hikk : i = k
      · rw [hikk] at hv
        exact absurd hv he
      · exact ih (k + 1) i (by omega) (by omega) hi hv

/-- C4: the adjacent-pair scan of `validateIndex` records the collision
pair `(i-1, i)` exactly when the two adjacent 16-byte hashes are
byte-identical, and fires the wrong-sort-order report at `i` exactly
when `entry[i-1]` does not strictly precede `entry[i]` under the
word-wise comparison. -/
theorem C4_checkOrdering_reports (zipIndex : List IndexEntry) (i : Nat)
    (h1 : 0 < i) (h2 : i < zipIndex.length) :
    ((i - 1, i) ∈ (checkOrdering zipIndex).collisions ↔
      (getEntry zipIndex (i - 1)).md5hash = (getEntry zipIndex i).md5hash) ∧
    (i ∈ (checkOrdering zipIndex).orderViolations ↔
      md5LessThan (getEntry zipIndex (i - 1)).md5hash (getEntry zipIndex i).md5hash = false) := by
  have hlen : 1 < zipIndex.length := by omega
  unfold checkOrdering
  rw [if_pos hlen]
  constructor
  · rw [checkOrderingFrom_collisions_mem zipIndex zipIndex.length 1 (i - 1) i (by omega)]
    constructor
    · rintro ⟨_, _, _, h4⟩
      exact h4
    · intro he
      exact ⟨by omega, h2, rfl, he⟩
  · rw [checkOrderingFrom_violations_mem zipIndex zipIndex.length 1 i (by omega)]
    constructor
    · rintro ⟨_, _, h3⟩
      exact h3
    · intro he
      exact ⟨by omega, h2, he⟩

/-- C4 witness: on a concrete two-entry index with equal hashes, the
scan at position 1 reports both the collision and the order violation. -/
theorem C4_checkOrdering_reports_witness :
    ((0, 1) ∈ (checkOrdering w4Index).collisions ↔
      (getEntry w4Index 0).md5hash = (getEntry w4Index 1).md5hash) ∧
    (1 ∈ (checkOrdering w4Index).orderViolations ↔
      md5LessThan (getEntry w4Index 0).md5hash (getEntry w4Index 1).md5hash = false) :=
  C4_checkOrdering_reports w4Index 1 (by decide) (by decide)

/-- C9: an index with byte-identical adjacent hashes is declared invalid
by `validateIndex`, whatever the root lookup, root header read, thorough
pass and quick flag do: equal hashes fail the strict word-wise ascent
check, which clears the `valid` flag for good. -/
theorem C9_collision_invalidates (zipIndex : List IndexEntry) (rootHash : List Nat)
    (rootHeaderOk slowOk quick : Bool) (i : Nat)
    (h1 : 0 < i) (h2 : i < zipIndex.length)
    (heq : (getEntry zipIndex (i - 1)).md5hash = (getEntry zipIndex i).md5hash) :
    validateIndex zipIndex rootHash rootHeaderOk slowOk quick = false := by
  have hvalid : (checkOrdering zipIndex).valid = false := by
    unfold checkOrdering
    rw [if_pos (by omega : 1 < zipIndex.length)]
    apply checkOrderingFrom_valid_false zipIndex zipIndex.length 1 i (by omega) (by omega) h2
    rw [heq]
    exact md5LessThan_irrefl _
  unfold validateIndex
  rw [hvalid]
  cases hfind : zipIndexFind zipIndex rootHash with
  | none => simp
  | some j => cases rootHeaderOk <;> simp

/-- C9 witness: a concrete index with a duplicated hash is invalid. -/
theorem C9_collision_invalidates_witness :
    validateIndex w9Index (wHash 9) true true false = false :=
  C9_collision_invalidates w9Index (wHash 9) true true false 1 (by decide) (by decide) (by decide)

/-- C7: `parseIndexData` rejects every blob whose length is not a
multiple of 24 (the source returns `-1`), and on a blob of length
`24 * n` returns the `n` entries in blob order, entry `i` carrying hash
bytes `[24i, 24i+16)` and the little-endian 64-bit word at `24i + 16` as
offset. -/
theorem C7_parseIndexData_correct (buffer : List Nat) :
    (buffer.length % 24 ≠ 0 → parseIndexData buffer = none) ∧
    (∀ n, buffer.length = 24 * n →
      ∃ l, parseIndexData buffer = some l ∧ l.length = n ∧
        ∀ i, i < n →
          getEntry l i =
            ⟨(buffer.drop (i * 24)).take 16, readBigUInt64LE buffer (i * 24 + 16)⟩) := by
  constructor
  · intro h
    unfold parseIndexData
    rw [if_pos h]
  · intro n hlen
    have h0 : buffer.length % 24 = 0 := by
      rw [hlen]
      exact Nat.mul_mod_right 24 n
    have hm : buffer.length / 24 = n := by
      rw [hlen]
      exact Nat.mul_div_cancel_left n (by norm_num)
    unfold parseIndexData
    rw [if_neg (fun hc => hc h0)]
    refine ⟨_, rfl, ?_, ?_⟩
    · rw [List.length_map, List.length_range, hm]
    · intro i hi
      unfold getEntry
      have hilen : i < ((List.range (buffer.length / 24)).map (fun i =>
          ({ md5hash := (buffer.drop (i * 24)).take 16
             offset := readBigUInt64LE buffer (i * 24 + 16) } : IndexEntry))).length := by
        rw [List.length_map, List.length_range, hm]
        exact hi
      rw [List.getD_eq_getElem _ _ hilen]
      rw [List.getElem_map]
      simp [List.getElem_range]

/-- C7 witness: a 25-byte blob is rejected; a 24-byte blob yields the
one entry described by its bytes. -/
theorem C7_parseIndexData_correct_witness :
    parseIndexData w7Bad = none ∧
    (∃ l, parseIndexData w7Good = some l ∧ l.length = 1 ∧
      ∀ i, i < 1 →
        getEntry l i =
          ⟨(w7Good.drop (i * 24)).take 16, readBigUInt64LE w7Good (i * 24 + 16)⟩) :=
  ⟨(C7_parseIndexData_correct w7Bad).1 (by decide),
   (C7_parseIndexData_correct w7Good).2 1 (by decide)⟩

/-- C8: the word-wise comparison does not coincide with full-magnitude
little-endian 128-bit ordering: there are 16-byte hashes `a`, `b` with
`md5LessThan a b` true while the 128-bit little-endian value of `a`
(`leVal` over all 16 bytes, last 8 bytes most significant) exceeds that
of `b`. -/
theorem C8_wordwise_differs_from_128bit :
    ∃ a b : List Nat, a.length = 16 ∧ b.length = 16 ∧
      md5LessThan a b = true ∧ leVal b < leVal a :=
  ⟨w8a, w8b, by decide, by decide, by decide, by decide⟩

/-! The zip64 extended-offset scan of the central directory parser. -/

/-- When the leading checks all pass and the 32-bit offset is the
sentinel, the parse is decided by the zip64 scan over the extra-field
region. -/
theorem validateCDH_zip64_path (buffer expectedFilename : List Nat) (fuel : Nat)
    (hsig : readUInt32LE buffer 0 = ZIP_START_OF_CENTRAL_DIRECTORY_HEADER_SIG)
    (hflags : Nat.land (1 + 8 + 32 + 8192) (readUInt16LE buffer 8) = 0)
    (hcomp : readUInt16LE buffer 10 = 0)
    (hname : (buffer.drop ZIP_CENTRAL_DIRECTORY_STATIC_SIZE).take (readUInt16LE buffer 28) = expectedFilename)
    (hoff : readUInt32LE buffer 42 = 0xFFFFFFFF) :
    validateCentralDirectoryHeader buffer expectedFilename fuel =
      match findZip64Offset buffer
          (ZIP_CENTRAL_DIRECTORY_STATIC_SIZE + readUInt16LE buffer 28 + readUInt16LE buffer 30)
          fuel (ZIP_CENTRAL_DIRECTORY_STATIC_SIZE + readUInt16LE buffer 28) with
      | none => none
      | some none => some (Except.error ArchiveError.noZip64Offset)
      | some (some offset64) => some (Except.ok (mkCDHeader buffer offset64)) := by
  simp only [validateCentralDirectoryHeader]
  rw [if_neg (fun hc => hc hsig), if_neg (fun hc => hc hflags), if_neg (fun hc => hc hcomp),
    if_neg (fun hc => hc hname), if_pos hoff]

/-- The zip64 scan never advances past the record with size field 0 at
the start of the extra region of `w3Buffer`: for every fuel bound the
loop is still running, i.e. the source loop never terminates there. -/
theorem w3_scan_diverges : ∀ fuel, findZip64Offset w3Buffer 50 fuel 46 = none := by
  intro fuel
  induction fuel with
  | zero => rfl
  | succ n ih =>
    have h1 : ¬(readUInt16LE w3Buffer 46 = ZIP64_EXTENDED_INFORMATION_EXTRA_SIG ∧
        readUInt16LE w3Buffer 48 = 8) := by decide
    conv_lhs => rw [findZip64Offset]
    rw [if_pos (by norm_num), if_neg h1]
    have h48 : readUInt16LE w3Buffer 48 = 0 := rfl
    rw [h48]
    exact ih

/-- C3: the claim that the extra-field scan of
`validateCentralDirectoryHeaderAndGetFileContents` terminates on every
buffer fails: on `w3Buffer` (declared extra size 4, extra bytes
`00 00 00 00`) the scan adds the record size field 0 to its cursor and
never advances, so for every fuel bound the fuel-indexed model is still
running and the parse never produces a result. -/
theorem C3_zip64_scan_nonterminating :
    ∀ fuel, validateCentralDirectoryHeader w3Buffer [] fuel = none := by
  intro fuel
  rw [validateCDH_zip64_path w3Buffer [] fuel rfl rfl rfl rfl rfl]
  have he : ZIP_CENTRAL_DIRECTORY_STATIC_SIZE + readUInt16LE w3Buffer 28 + readUInt16LE w3Buffer 30 = 50 := rfl
  have hc : ZIP_CENTRAL_DIRECTORY_STATIC_SIZE + readUInt16LE w3Buffer 28 = 46 := rfl
  rw [he, hc, w3_scan_diverges fuel]

/-- More fuel never changes a scan result that was already reached. -/
theorem findZip64Offset_mono (b : List Nat) (e : Nat) :
    ∀ fuel cur r, findZip64Offset b e fuel cur = some r →
      ∀ fuel2, fuel ≤ fuel2 → findZip64Offset b e fuel2 cur = some r := by
  intro fuel
  induction fuel with
  | zero =>
    intro cur r h
    exact Option.noConfusion h
  | succ n ih =>
    intro cur r h fuel2 hle
    obtain ⟨m, rfl⟩ : ∃ m, fuel2 = m + 1 := ⟨fuel2 - 1, by omega⟩
    rw [findZip64Offset] at h ⊢
    by_cases hc : cur < e
    · rw [if_pos hc] at h ⊢
      by_cases hm : readUInt16LE b cur = ZIP64_EXTENDED_INFORMATION_EXTRA_SIG ∧
          readUInt16LE b (cur + 2) = 8
      · rw [if_pos hm] at h ⊢
        exact h
      · rw [if_neg hm] at h ⊢
        exact ih _ r h m (by omega)
    · rw [if_neg hc] at h ⊢
      exact h

/-- C2: on `w2Buffer`, whose extra-field region is two well-formed
records with the valid 8-byte tag-`0x0001` record second, the parse does
not resolve the offset to that record's value `0x0123456789ABCDEF`:
the scan advances by the record's size field without the 4-byte record
header, lands mid-record, and the parse throws the missing-zip64-offset
error instead (for every sufficient fuel, i.e. in the terminated run of
the source loop). -/
theorem C2_zip64_record_not_found :
    ∀ fuel, validateCentralDirectoryHeader w2Buffer [] (fuel + 3) =
      some (Except.error ArchiveError.noZip64Offset) := by
  intro fuel
  rw [validateCDH_zip64_path w2Buffer [] (fuel + 3) rfl rfl rfl rfl rfl]
  have h3 : findZip64Offset w2Buffer 66 3 46 = some none := rfl
  have hm : findZip64Offset w2Buffer 66 (fuel + 3) 46 = some none :=
    findZip64Offset_mono w2Buffer 66 3 46 none h3 (fuel + 3) (by omega)
  have he : ZIP_CENTRAL_DIRECTORY_STATIC_SIZE + readUInt16LE w2Buffer 28 + readUInt16LE w2Buffer 30 = 66 := rfl
  have hc : ZIP_CENTRAL_DIRECTORY_STATIC_SIZE + readUInt16LE w2Buffer 28 = 46 := rfl
  rw [he, hc, hm]

/-! The trailing-window signature scan. -/

/-- A buffer with a bad leading signature is rejected by the directory
header parse, for any fuel. -/
theorem validateCDH_badsig (buffer expectedFilename : List Nat) (fuel : Nat)
    (h : readUInt32LE buffer 0 ≠ ZIP_START_OF_CENTRAL_DIRECTORY_HEADER_SIG) :
    validateCentralDirectoryHeader buffer expectedFilename fuel =
      some (Except.error (ArchiveError.badCDSignature (readUInt32LE buffer 0))) := by
  simp only [validateCentralDirectoryHeader]
  rw [if_pos h]

/-- When no scanned position of the window reads as either signature,
the backward scan leaves both `start` and `end` at 0. -/
theorem scanForDirectorySigs_none (buffer : List Nat)
    (hnone : ∀ i, i ≤ buffer.length - 4 → 1 ≤ i →
      readUInt32LE buffer i ≠ ZIP_END_OF_CENTRAL_DIRECTORY_HEADER_SIG ∧
      readUInt32LE buffer i ≠ ZIP_START_OF_CENTRAL_DIRECTORY_HEADER_SIG) :
    ∀ j, j ≤ buffer.length - 4 → scanForDirectorySigs buffer j 0 = (0, 0) := by
  intro j
  induction j with
  | zero =>
    intro _
    rfl
  | succ n ih =>
    intro hj
    have h := hnone (n + 1) hj (by omega)
    rw [scanForDirectorySigs]
    rw [if_neg h.2, if_neg h.1]
    exact ih (by omega)

theorem leVal_replicate_zero : ∀ n, leVal (List.replicate n 0) = 0
  | 0 => rfl
  | n + 1 => by
    rw [List.replicate_succ]
    unfold leVal
    rw [leVal_replicate_zero n]

theorem readUInt32LE_replicate_zero (n i : Nat) :
    readUInt32LE (List.replicate n 0) i = 0 := by
  unfold readUInt32LE
  rw [List.drop_replicate, List.take_replicate]
  exact leVal_replicate_zero _

/-- C6 counterexample: on an all-zero 320-byte trailing window, which
contains no end-of-directory marker, `getLastCentralDirectoryEntry`
does not fail: it returns the whole window. -/
theorem C6_counterexample_no_failure :
    getLastCentralDirectoryEntry w6Window = Except.ok w6Window := by
  simp only [getLastCentralDirectoryEntry]
  rw [scanForDirectorySigs_none w6Window
    (fun i _ _ => by
      unfold w6Window
      rw [readUInt32LE_replicate_zero]
      exact ⟨by decide, by decide⟩)
    (w6Window.length - 4) (le_refl _)]
  simp

/-- C6 amended: `getLastCentralDirectoryEntry` raises no error when the
window holds no end-of-directory marker; with neither signature at any
scanned position it returns the whole window unchanged, and the
malformed-container failure is produced only downstream, by the
directory-header signature check on that window. -/
theorem C6_no_marker_returns_window (buffer : List Nat)
    (hnone : ∀ i, i ≤ buffer.length - 4 → 1 ≤ i →
      readUInt32LE buffer i ≠ ZIP_END_OF_CENTRAL_DIRECTORY_HEADER_SIG ∧
      readUInt32LE buffer i ≠ ZIP_START_OF_CENTRAL_DIRECTORY_HEADER_SIG) :
    getLastCentralDirectoryEntry buffer = Except.ok buffer ∧
    (readUInt32LE buffer 0 ≠ ZIP_START_OF_CENTRAL_DIRECTORY_HEADER_SIG →
      ∀ fuel expectedFilename,
        validateCentralDirectoryHeader buffer expectedFilename fuel =
          some (Except.error (ArchiveError.badCDSignature (readUInt32LE buffer 0)))) := by
  constructor
  · simp only [getLastCentralDirectoryEntry]
    rw [scanForDirectorySigs_none buffer hnone (buffer.length - 4) (le_refl _)]
    simp
  · intro h fuel expectedFilename
    exact validateCDH_badsig buffer expectedFilename fuel h

/-- C6 witness: on a concrete all-zero window the function returns the
window and the downstream parse rejects its signature. -/
theorem C6_no_marker_returns_window_witness :
    getLastCentralDirectoryEntry w6Small = Except.ok w6Small ∧
    validateCentralDirectoryHeader w6Small [] 1 =
      some (Except.error (ArchiveError.badCDSignature (readUInt32LE w6Small 0))) :=
  ⟨(C6_no_marker_returns_window w6Small (by decide)).1,
   (C6_no_marker_returns_window w6Small (by decide)).2 (by decide) 1 []⟩

/-! Cross-validation: which rejection settles the promise first. -/

/-- A rejection that already settled the promise is kept by every later
`entry` event. -/
theorem slowValidateStep_keep_err (md5 : List Nat → List Nat) (zipIndex : List IndexEntry)
    (st : Nat × Option SlowError) (e : ZipEntry) (err : SlowError) (h : st.2 = some err) :
    (slowValidateStep md5 zipIndex st e).2 = some err := by
  unfold slowValidateStep
  by_cases hc : e.isFile = true ∧ e.name ≠ indexFilename
  · rw [if_pos hc, h]
  · rw [if_neg hc]
    exact h

theorem slowValidate_foldl_keep_err (md5 : List Nat → List Nat) (zipIndex : List IndexEntry)
    (err : SlowError) :
    ∀ (l : List ZipEntry) (st : Nat × Option SlowError), st.2 = some err →
      (l.foldl (slowValidateStep md5 zipIndex) st).2 = some err := by
  intro l
  induction l with
  | nil =>
    intro st h
    exact h
  | cons a l ih =>
    intro st h
    rw [List.foldl_cons]
    exact ih _ (slowValidateStep_keep_err md5 zipIndex st a err h)

/-- An entry that resolves cleanly does not settle the promise. -/
theorem slowValidateStep_ok (md5 : List Nat → List Nat) (zipIndex : List IndexEntry)
    (st : Nat × Option SlowError) (e : ZipEntry)
    (hok : entryOk md5 zipIndex e = true) (h2 : st.2 = none) :
    (slowValidateStep md5 zipIndex st e).2 = none := by
  unfold slowValidateStep
  unfold entryOk at hok
  by_cases hc : e.isFile = true ∧ e.name ≠ indexFilename
  · rw [if_pos hc] at hok ⊢
    rw [h2]
    cases hfind : zipIndexFind zipIndex (md5 e.name) with
    | none =>
      rw [hfind] at hok
      exact absurd hok (by simp)
    | some j =>
      rw [hfind] at hok
      have hoff : e.offset = (getEntry zipIndex j).offset := of_decide_eq_true hok
      show (if e.offset ≠ (getEntry zipIndex j).offset then
          some (SlowError.incorrectOffset e.name (md5 e.name) (getEntry zipIndex j).offset e.offset)
        else none) = none
      rw [if_neg (fun hn => hn hoff)]
  · rw [if_neg hc]
    exact h2

theorem slowValidate_foldl_ok_none (md5 : List Nat → List Nat) (zipIndex : List IndexEntry) :
    ∀ (l : List ZipEntry) (st : Nat × Option SlowError), st.2 = none →
      (∀ x ∈ l, entryOk md5 zipIndex x = true) →
      (l.foldl (slowValidateStep md5 zipIndex) st).2 = none := by
  intro l
  induction l with
  | nil =>
    intro st h _
    exact h
  | cons a l ih =>
    intro st h hall
    rw [List.foldl_cons]
    exact ih _ (slowValidateStep_ok md5 zipIndex st a (hall a (List.mem_cons_self a l)) h)
      (fun x hx => hall x (List.mem_cons_of_mem a hx))

theorem slowValidateStep_none_eval (md5 : List Nat → List Nat) (zipIndex : List IndexEntry)
    (st : Nat × Option SlowError) (e : ZipEntry)
    (hfile : e.isFile = true) (hname : e.name ≠ indexFilename) (h2 : st.2 = none) :
    slowValidateStep md5 zipIndex st e =
      (st.1 + 1,
        match zipIndexFind zipIndex (md5 e.name) with
        | none => some (SlowError.notFound e.name (md5 e.name))
        | some j =>
          if e.offset ≠ (getEntry zipIndex j).offset then
            some (SlowError.incorrectOffset e.name (md5 e.name) (getEntry zipIndex j).offset e.offset)
          else
            none) := by
  unfold slowValidateStep
  rw [if_pos ⟨hfile, hname⟩, h2]

/-- The rejection of the first failing entry settles cross-validation:
entries before it resolve cleanly, its own rejection is kept by the rest
of the enumeration and by the final count check. -/
theorem slowValidateIndexE_first_error (md5 : List Nat → List Nat) (zipIndex : List IndexEntry)
    (pre rest : List ZipEntry) (e : ZipEntry) (err : SlowError)
    (hpre : ∀ x ∈ pre, entryOk md5 zipIndex x = true)
    (hfile : e.isFile = true) (hname : e.name ≠ indexFilename)
    (herr : (match zipIndexFind zipIndex (md5 e.name) with
      | none => some (SlowError.notFound e.name (md5 e.name))
      | some j =>
        if e.offset ≠ (getEntry zipIndex j).offset then
          some (SlowError.incorrectOffset e.name (md5 e.name) (getEntry zipIndex j).offset e.offset)
        else
          none) = some err) :
    slowValidateIndexE md5 zipIndex (pre ++ e :: rest) = Except.error err ∧
    slowValidateIndexBool md5 zipIndex (pre ++ e :: rest) = false := by
  have hpre2 : (pre.foldl (slowValidateStep md5 zipIndex) (0, none)).2 = none :=
    slowValidate_foldl_ok_none md5 zipIndex pre (0, none) rfl hpre
  have hstep : (slowValidateStep md5 zipIndex
      (pre.foldl (slowValidateStep md5 zipIndex) (0, none)) e).2 = some err := by
    rw [slowValidateStep_none_eval md5 zipIndex _ e hfile hname hpre2]
    exact herr
  have hfold : ((pre ++ e :: rest).foldl (slowValidateStep md5 zipIndex) (0, none)).2 = some err := by
    rw [List.foldl_append, List.foldl_cons]
    exact slowValidate_foldl_keep_err md5 zipIndex err rest _ hstep
  constructor
  · simp only [slowValidateIndexE]
    rw [hfold]
  · simp only [slowValidateIndexBool, slowValidateIndexE]
    rw [hfold]

theorem w5find_a : zipIndexFind w5Index (wMd5 [0x61]) = some 0 := by
  show zipIndexFindAux w5Index (wMd5 [0x61]) 0 1 = some 0
  rw [zipIndexFindAux_step w5Index (wMd5 [0x61]) 0 1 (by norm_num)]
  rw [if_pos (by decide : (getEntry w5Index (0 + (1 - 1 - 0) / 2)).md5hash = wMd5 [0x61])]

theorem w5find_b : zipIndexFind w5Index (wMd5 [0x62]) = none := by
  show zipIndexFindAux w5Index (wMd5 [0x62]) 0 1 = none
  rw [zipIndexFindAux_step w5Index (wMd5 [0x62]) 0 1 (by norm_num)]
  rw [if_neg (by decide : ¬(getEntry w5Index (0 + (1 - 1 - 0) / 2)).md5hash = wMd5 [0x62])]
  rw [if_pos (by decide : md5LessThan (getEntry w5Index (0 + (1 - 1 - 0) / 2)).md5hash (wMd5 [0x62]) = true)]
  exact zipIndexFindAux_stop w5Index (wMd5 [0x62]) (0 + (1 - 1 - 0) / 2 + 1) 1 (by norm_num)

theorem w5_entryOk_a : entryOk wMd5 w5Index ⟨[0x61], true, 10⟩ = true := by
  unfold entryOk
  rw [if_pos ⟨rfl, by decide⟩]
  rw [w5find_a]
  decide

/-- C5 counterexample: over a container with two real file entries and
a one-entry index covering only the first, cross-validation fails with
the not-found rejection for the second entry, not with the entry-count
mismatch the claim states (the count check runs only after the promise
has already settled on the per-entry rejection). -/
theorem C5_counterexample_count_mismatch_not_surfaced :
    slowValidateIndexE wMd5 w5Index w5Entries =
      Except.error (SlowError.notFound [0x62] (wMd5 [0x62])) ∧
    slowValidateIndexBool wMd5 w5Index w5Entries = false :=
  slowValidateIndexE_first_error wMd5 w5Index [⟨[0x61], true, 10⟩] [] ⟨[0x62], true, 20⟩
    (SlowError.notFound [0x62] (wMd5 [0x62]))
    (fun x hx => by rw [List.mem_singleton.mp hx]; exact w5_entryOk_a)
    rfl (by decide) (by rw [w5find_b])

/-- C5 (amended): cross-validation over a container whose first failing
file entry is absent from the index fails with the not-found rejection
naming that entry (an index of N-1 entries over N real entries fails
this way, not with the count mismatch); when the first failing entry is
present but its stored offset differs from the real local-entry offset,
it fails with the specific offset mismatch naming that entry. -/
theorem C5_first_mismatch_surfaced (md5 : List Nat → List Nat) (zipIndex : List IndexEntry)
    (pre rest : List ZipEntry) (e : ZipEntry)
    (hpre : ∀ x ∈ pre, entryOk md5 zipIndex x = true)
    (hfile : e.isFile = true) (hname : e.name ≠ indexFilename) :
    (zipIndexFind zipIndex (md5 e.name) = none →
      slowValidateIndexE md5 zipIndex (pre ++ e :: rest) =
        Except.error (SlowError.notFound e.name (md5 e.name)) ∧
      slowValidateIndexBool md5 zipIndex (pre ++ e :: rest) = false) ∧
    (∀ j, zipIndexFind zipIndex (md5 e.name) = some j →
      e.offset ≠ (getEntry zipIndex j).offset →
      slowValidateIndexE md5 zipIndex (pre ++ e :: rest) =
        Except.error (SlowError.incorrectOffset e.name (md5 e.name) (getEntry zipIndex j).offset e.offset) ∧
      slowValidateIndexBool md5 zipIndex (pre ++ e :: rest) = false) := by
  constructor
  · intro hfind
    apply slowValidateIndexE_first_error md5 zipIndex pre rest e _ hpre hfile hname
    rw [hfind]
  · intro j hfind hne
    apply slowValidateIndexE_first_error md5 zipIndex pre rest e _ hpre hfile hname
    rw [hfind]
    show (if e.offset ≠ (getEntry zipIndex j).offset then
        some (SlowError.incorrectOffset e.name (md5 e.name) (getEntry zipIndex j).offset e.offset)
      else none) =
      some (SlowError.incorrectOffset e.name (md5 e.name) (getEntry zipIndex j).offset e.offset)
    rw [if_pos hne]

/-- C5 witness: the missing-entry container surfaces the not-found
rejection; the shifted-offset container surfaces the offset mismatch
naming the entry. -/
theorem C5_first_mismatch_surfaced_witness :
    (slowValidateIndexE wMd5 w5Index w5Entries =
        Except.error (SlowError.notFound [0x62] (wMd5 [0x62])) ∧
      slowValidateIndexBool wMd5 w5Index w5Entries = false) ∧
    (slowValidateIndexE wMd5 w5Index w5bEntries =
        Except.error (SlowError.incorrectOffset [0x61] (wMd5 [0x61]) 10 99) ∧
      slowValidateIndexBool wMd5 w5Index w5bEntries = false) :=
  ⟨(C5_first_mismatch_surfaced wMd5 w5Index [⟨[0x61], true, 10⟩] [] ⟨[0x62], true, 20⟩
      (fun x hx => by rw [List.mem_singleton.mp hx]; exact w5_entryOk_a) rfl (by decide)).1 w5find_b,
   (C5_first_mismatch_surfaced wMd5 w5Index [] [] ⟨[0x61], true, 99⟩
      (fun x hx => absurd hx (List.not_mem_nil x)) rfl (by decide)).2 0 w5find_a (by decide)⟩

/-- C10: the `readData` closure of `getIndexReader` hashes the
normalized path for the index search but validates the located local
entry against the original argument: whenever the normalized form
differs from the argument, the entry is present in the index, and the
stored filename at the resolved offset equals the normalized form, the
read fails with the filename mismatch. -/
theorem C10_filename_checked_against_unnormalized
    (normalize md5 : List Nat → List Nat) (zipIndex : List IndexEntry)
    (file path : List Nat)
    (hne : normalize path ≠ path)
    (j : Nat) (hfind : zipIndexFind zipIndex (md5 (normalize path)) = some j)
    (hsig : readUInt32LE (localHeaderWindow file (getEntry zipIndex j).offset
      (ZIP_LOCAL_FILE_HEADER_STATIC_SIZE + path.length)) 0 = 0x04034b50)
    (hfns : readUInt16LE (localHeaderWindow file (getEntry zipIndex j).offset
      (ZIP_LOCAL_FILE_HEADER_STATIC_SIZE + path.length)) 26 = (normalize path).length)
    (hstored : ((localHeaderWindow file (getEntry zipIndex j).offset
      (ZIP_LOCAL_FILE_HEADER_STATIC_SIZE + path.length)).drop ZIP_LOCAL_FILE_HEADER_STATIC_SIZE).take
        (normalize path).length = normalize path) :
    readData normalize md5 zipIndex file path =
      Except.error (ArchiveError.localFilenameMismatch (normalize path) path) := by
  have hsearch : searchIndex md5 zipIndex (normalize path) = some (getEntry zipIndex j) := by
    unfold searchIndex
    rw [hfind]
  have hheader : readZipLocalFileHeader file (getEntry zipIndex j).offset path =
      Except.error (ArchiveError.localFilenameMismatch (normalize path) path) := by
    simp only [readZipLocalFileHeader, parseLocalFileHeaderAndValidateFilename]
    rw [if_neg (fun hc => hc hsig)]
    rw [hfns, hstored]
    rw [if_pos hne]
  simp only [readData]
  rw [hsearch]
  show (match readZipLocalFileHeader file (getEntry zipIndex j).offset path with
    | Except.error e => Except.error e
    | Except.ok header =>
      Except.ok ((file.drop ((getEntry zipIndex j).offset + ZIP_LOCAL_FILE_HEADER_STATIC_SIZE +
        header.filename_size + header.extra_size)).take header.comp_size)) =
    Except.error (ArchiveError.localFilenameMismatch (normalize path) path)
  rw [hheader]

/-- C10 witness: requesting `/a` against a container whose index knows
the normalized name `a` and whose local entry stores the filename `a`
fails with the filename mismatch. -/
theorem C10_filename_checked_against_unnormalized_witness :
    readData w10normalize wMd5 w5Index w10file w10path =
      Except.error (ArchiveError.localFilenameMismatch (w10normalize w10path) w10path) :=
  C10_filename_checked_against_unnormalized w10normalize wMd5 w5Index w10file w10path
    (by decide) 0 w5find_a (by decide) (by decide) (by decide)

end Archive
